import Mathlib

/-!
Verification of the session-reconstruction core of the `last` utility
(`src/uu/last/src/platform/unix.rs`).

Records are modelled as decoded structures; timestamps (`OffsetDateTime`
values of the external time library) are modelled as instants measured in
integer nanoseconds since the UNIX epoch, so that `unix_timestamp` is the
floor to whole seconds and `nanosecond` the sub-second remainder.
Printing is modelled by returning the rendered lines.
-/

/-! ## String rendering helpers (Rust `format!` padding semantics) -/

/-- Left padding with a fill character to a minimum width, as Rust
`{:c>w}` (the fill is applied before the rendered value, sign included). -/
def fill_left (c : Char) (w : Nat) (s : String) : String :=
  String.mk (List.replicate (w - s.length) c) ++ s

/-- Right padding with spaces to a minimum width, as Rust `{:<w}`.
Widths count characters, as in Rust `std::fmt`. -/
def pad_right (w : Nat) (s : String) : String :=
  s ++ String.mk (List.replicate (w - s.length) (Char.ofNat 32))

/-- Centering with spaces to a minimum width, as Rust `{:^w}`:
the left side receives `padding / 2`, the remainder goes right. -/
def center_pad (w : Nat) (s : String) : String :=
  let total := w - s.length
  let l := total / 2
  String.mk (List.replicate l (Char.ofNat 32)) ++ s
    ++ String.mk (List.replicate (total - l) (Char.ofNat 32))

/-- Rust `str::trim_end`: remove trailing whitespace characters. -/
def trim_end (s : String) : String :=
  String.mk (s.data.reverse.dropWhile Char.isWhitespace).reverse

/-- Rust `{:0>2}` applied to an integer. -/
def pad2zero (n : Int) : String :=
  fill_left (Char.ofNat 48) 2 (toString n)

/-! ## Instants and the time-delta engine

An instant is an `Int`: nanoseconds since the UNIX epoch. -/

/-- `OffsetDateTime::unix_timestamp`: whole seconds (floor). -/
def unix_timestamp (t : Int) : Int := t / 1000000000

/-- `OffsetDateTime::nanosecond`: the sub-second part, always in
`[0, 1000000000)`. -/
def nanosecond (t : Int) : Nat := (t % 1000000000).toNat

/-- Rust `u32::try_into::<i32>()`: fails iff the value does not fit. -/
def try_into_i32 (n : Nat) : Option Int :=
  if n < 2147483648 then some (n : Int) else none

/-- `time::Duration::new(secs, nanos)`, as a total nanosecond count. -/
def duration_new (secs nanos : Int) : Int := secs * 1000000000 + nanos

/-- `calculate_time_delta` with the two `try_into().unwrap()` calls made
explicit: `none` models a panic of either `unwrap`. -/
def calculate_time_delta_checked (curr_datetime last_datetime : Int) : Option Int :=
  match try_into_i32 (nanosecond curr_datetime), try_into_i32 (nanosecond last_datetime) with
  | some cn, some ln =>
      some (duration_new (unix_timestamp last_datetime) ln
            - duration_new (unix_timestamp curr_datetime) cn)
  | _, _ => none

/-- `calculate_time_delta`: `last_duration - curr_duration`, where each
duration is rebuilt from the instant's whole seconds and nanoseconds. -/
def calculate_time_delta (curr_datetime last_datetime : Int) : Int :=
  duration_new (unix_timestamp last_datetime) (nanosecond last_datetime)
    - duration_new (unix_timestamp curr_datetime) (nanosecond curr_datetime)

/-- `time::Duration::whole_seconds`: truncating division of the total
nanosecond count (Rust semantics round toward zero). -/
def whole_seconds (d : Int) : Int := Int.tdiv d 1000000000

/-- `duration_string`: decompose into days / hours / minutes with Rust
`i64` division (truncation toward zero) and render. -/
def duration_string (duration : Int) : String :=
  let seconds0 := whole_seconds duration
  let days := Int.tdiv seconds0 86400
  let seconds1 := seconds0 - days * 86400
  let hours := Int.tdiv seconds1 3600
  let seconds2 := seconds1 - hours * 3600
  let minutes := Int.tdiv seconds2 60
  if days > 0 then
    "(" ++ toString days ++ "+" ++ pad2zero hours ++ ":" ++ pad2zero minutes ++ ")"
  else
    "(" ++ pad2zero hours ++ ":" ++ pad2zero minutes ++ ")"

/-! ## Record model -/

/-- One decoded login-accounting record (`Utmpx`).  The accessor methods
of the record-iteration interface become fields; `is_user_process` is the
decoded classification bit the source branches on first. -/
structure Utmpx where
  user : String
  tty_device : String
  host : String
  pid : Int
  login_time : Int
  is_user_process : Bool
deriving Inhabited, Repr, DecidableEq

def RUN_LEVEL_STR : String := "runlevel"
def REBOOT_STR : String := "reboot"
def SHUTDOWN_STR : String := "shutdown"

/-- The reconstruction state (`struct Last`). -/
structure Last where
  last_reboot_ut : Option Utmpx
  last_shutdown_ut : Option Utmpx
  last_dead_ut : List Utmpx
  system : Bool
  file : String
  time_format : String
  users : Option (List String)
deriving Inhabited, Repr

/-! ## Time formatting (external `time` crate, fixed patterns)

Modelled from the spec: the source delegates calendar rendering to the
external time library with the fixed pattern
`"[month repr:short] [day padding:space] [hour]:[minute]"` (and
`"[hour]:[minute]"` for end times); the conversion from an instant to
calendar fields is the standard civil-from-days computation, here for
offset zero. -/

/-- Month and day-of-month of a day count since the epoch
(civil-from-days, floor division throughout). -/
def civil_month_day (days : Int) : Int × Int :=
  let z := days + 719468
  let doe := z % 146097
  let yoe := (doe - doe / 1460 + doe / 36524 - doe / 146096) / 365
  let doy := doe - (365 * yoe + yoe / 4 - yoe / 100)
  let mp := (5 * doy + 2) / 153
  let d := doy - (153 * mp + 2) / 5 + 1
  let m := mp + (if mp < 10 then 3 else -9)
  (m, d)

/-- Modelled from the spec: `[month repr:short]`, fixed English
three-letter month tokens. -/
def month_abbrev : Int → String
  | 1 => "Jan"
  | 2 => "Feb"
  | 3 => "Mar"
  | 4 => "Apr"
  | 5 => "May"
  | 6 => "Jun"
  | 7 => "Jul"
  | 8 => "Aug"
  | 9 => "Sep"
  | 10 => "Oct"
  | 11 => "Nov"
  | 12 => "Dec"
  | _ => "???"

/-- Modelled from the spec: `[day padding:space]`, the day of month
space-padded to two characters. -/
def day_padded (d : Int) : String :=
  if d < 10 then " " ++ toString d else toString d

/-- Modelled from the spec: the start-time pattern
`[month repr:short] [day padding:space] [hour]:[minute]`. -/
def format_short (t : Int) : String :=
  let secs := t / 1000000000
  let days := secs / 86400
  let sod := secs % 86400
  let hour := sod / 3600
  let minute := (sod % 3600) / 60
  let md := civil_month_day days
  month_abbrev md.1 ++ " " ++ day_padded md.2 ++ " "
    ++ pad2zero hour ++ ":" ++ pad2zero minute

/-- Modelled from the spec: the end-time pattern `[hour]:[minute]`. -/
def clock_string (t : Int) : String :=
  let secs := t / 1000000000
  let sod := secs % 86400
  pad2zero (sod / 3600) ++ ":" ++ pad2zero ((sod % 3600) / 60)

/-! ## Session reconstructor -/

/-- `Last::time_string`. -/
def Last.time_string (self : Last) (ut : Utmpx) : String :=
  match self.time_format with
  | "short" => format_short ut.login_time
  | _ => ""

/-- `Last::end_time_string`. -/
def Last.end_time_string (self : Last) (user_process_str : Option String)
    (end_ut : Int) : String :=
  match user_process_str with
  | some val => val
  | none =>
      match self.time_format with
      | "short" => clock_string end_ut
      | _ => ""

/-- `Last::end_state_string`: resolve the end marker and duration of a
record, given an optionally matched dead-process record. -/
def Last.end_state_string (self : Last) (ut : Utmpx) (dead_ut : Option Utmpx) :
    String × String :=
  let curr_datetime := ut.login_time
  match dead_ut with
  | some dead =>
      let dead_datetime := dead.login_time
      let time_delta := duration_string (calculate_time_delta curr_datetime dead_datetime)
      (self.end_time_string none dead_datetime, time_delta)
  | none =>
      let reboot_datetime := self.last_reboot_ut.map (fun r => r.login_time)
      let shutdown_datetime := self.last_shutdown_ut.map (fun r => r.login_time)
      if reboot_datetime.isNone ∧ shutdown_datetime.isNone then
        if ut.is_user_process then
          (" - still logged in", "")
        else
          (" - still running", "")
      else
        let reboot := reboot_datetime.getD 0
        let shutdown := shutdown_datetime.getD 0
        if reboot ≥ shutdown then
          let time_delta := duration_string (calculate_time_delta curr_datetime shutdown)
          let proc_status : Option String :=
            if ut.is_user_process then some "down" else none
          (self.end_time_string proc_status shutdown, time_delta)
        else
          let time_delta := duration_string (calculate_time_delta curr_datetime reboot)
          let proc_status : Option String :=
            if ut.is_user_process then some "crash" else none
          (self.end_time_string proc_status reboot, time_delta)

/-- The characters occupying exactly the first `n` UTF-8 bytes of a
character list, or `none` when `n` exceeds the byte length or does not
fall on a character boundary (`Char.utf8Size` agrees with Rust's
`char::len_utf8`). -/
def take_bytes : List Char → Nat → Option (List Char)
  | _, 0 => some []
  | [], _ + 1 => none
  | c :: cs, n + 1 =>
      if c.utf8Size ≤ n + 1 then
        (take_bytes cs (n + 1 - c.utf8Size)).map (fun pre => c :: pre)
      else
        none

/-- Rust `host.get(0..16)`: the byte-indexed slice of the first 16
bytes, `none` when the string is shorter than 16 bytes or byte offset 16
is not a character boundary. -/
def str_get_0_16 (s : String) : Option String :=
  (take_bytes s.data 16).map String.mk

/-- `Last::print_line`: render one report line (the `println!` becomes
the returned string).  The host is truncated by
`host.get(0..16).unwrap_or(host)`: its first 16 bytes, or the whole
host when that slice is unavailable. -/
def print_line (user line time host end_time delta : String) : String :=
  let host_to_print := (str_get_0_16 host).getD host
  trim_end (pad_right 8 user ++ " " ++ pad_right 12 line ++ " "
    ++ pad_right 16 host_to_print ++ " " ++ pad_right 10 time
    ++ " - " ++ pad_right 8 end_time ++ " " ++ center_pad 6 delta)

/-- `Last::print_runlevel`: emits one line iff `system` is set. -/
def Last.print_runlevel (self : Last) (ut : Utmpx) : Option String :=
  if self.system then
    let curr := Char.ofNat ((Int.tmod ut.pid 256 % 256).toNat)
    let runlvline := "(to lvl " ++ String.mk [curr] ++ ")"
    let es := self.end_state_string ut none
    some (print_line RUN_LEVEL_STR runlvline (self.time_string ut) ut.host es.1 es.2)
  else
    none

/-- The user filter of `Last::print_shutdown` (the early return). -/
def Last.shutdown_user_ok (self : Last) (ut : Utmpx) : Bool :=
  match self.users with
  | some users =>
      users.any (fun val => val.trim == "system down" || val.trim == ut.user.trim)
  | none => true

/-- `Last::print_shutdown`: emits one line iff the user filter passes
and `system` is set. -/
def Last.print_shutdown (self : Last) (ut : Utmpx) : Option String :=
  if self.shutdown_user_ok ut then
    if self.system then
      let es := self.end_state_string ut none
      some (print_line SHUTDOWN_STR "system down" (self.time_string ut) ut.host es.1 es.2)
    else
      none
  else
    none

/-- `Last::print_reboot`: always emits one line. -/
def Last.print_reboot (self : Last) (ut : Utmpx) : String :=
  let es := self.end_state_string ut none
  print_line REBOOT_STR "system boot" (self.time_string ut) ut.host es.1 es.2

/-- `Last::print_user`: always emits one line. -/
def Last.print_user (self : Last) (ut : Utmpx) (dead_ut : Option Utmpx) : String :=
  let es := self.end_state_string ut dead_ut
  print_line ut.user ut.tty_device (self.time_string ut) ut.host es.1 es.2

/-- `Iterator::position` on a list. -/
def position (p : α → Bool) : List α → Option Nat
  | [] => none
  | x :: xs => if p x then some 0 else (position p xs).map (fun i => i + 1)

/-- `Vec::swap_remove`: overwrite index `i` with the last element and
drop the last element. -/
def swap_remove (l : List α) (i : Nat) : List α :=
  match l.getLast? with
  | none => l
  | some z => (l.set i z).dropLast

/-- One iteration of the `while let Some(ut) = ut_stack.pop()` loop of
`Last::exec`: the updated state and the lines emitted for this record. -/
def Last.step (self : Last) (ut : Utmpx) : Last × List String :=
  if ut.is_user_process then
    match position (fun dead_ut => ut.tty_device == dead_ut.tty_device) self.last_dead_ut with
    | some pos =>
        let dead_proc := self.last_dead_ut.getD pos default
        let self' := { self with last_dead_ut := swap_remove self.last_dead_ut pos }
        (self', [self'.print_user ut (some dead_proc)])
    | none => (self, [self.print_user ut none])
  else if ut.user == RUN_LEVEL_STR then
    (self, (self.print_runlevel ut).toList)
  else if ut.user == SHUTDOWN_STR then
    ({ self with last_shutdown_ut := some ut }, (self.print_shutdown ut).toList)
  else if ut.user == REBOOT_STR then
    ({ self with last_reboot_ut := some ut }, [self.print_reboot ut])
  else if ut.user == "" then
    ({ self with last_dead_ut := self.last_dead_ut ++ [ut] }, [])
  else
    (self, [])

/-- The whole loop of `Last::exec` over an already-reversed record
sequence. -/
def Last.run : Last → List Utmpx → Last × List String
  | self, [] => (self, [])
  | self, ut :: rest =>
      let sl := self.step ut
      let r := Last.run sl.1 rest
      (r.1, sl.2 ++ r.2)

/-- `Last.run` with every emitted line tagged by the record that
produced it (used to relate runs that differ in the `system` flag). -/
def Last.run_tagged : Last → List Utmpx → Last × List (Utmpx × String)
  | self, [] => (self, [])
  | self, ut :: rest =>
      let sl := self.step ut
      let r := Last.run_tagged sl.1 rest
      (r.1, sl.2.map (fun l => (ut, l)) ++ r.2)

/-- `Last::exec` on a successfully read record sequence: the records are
pushed onto a stack in log order and popped, so they are processed in
reverse. -/
def Last.exec_lines (self : Last) (records : List Utmpx) : List String :=
  (Last.run self records.reverse).2

/-- Modelled from the spec: the record source (external collaborator
`Utmpx::iter_all_records_from`) either fails to open — a fatal error —
or yields the decoded record sequence; `Last::exec` aborts on failure
before any processing and otherwise processes every record. -/
def Last.exec (self : Last) (source : Except String (List Utmpx)) :
    Except String (List String) :=
  match source with
  | .error e => .error e
  | .ok records => .ok (self.exec_lines records)

/-- Modelled from the spec: `uumain` builds the reconstruction state from
the CLI flags and runs it; a `UResult` error becomes a non-zero exit
code and a success exits with 0.  Returns (exit code, emitted lines). -/
def uumain_model (system : Bool) (file : String)
    (source : Except String (List Utmpx)) : Nat × List String :=
  let last : Last :=
    { last_reboot_ut := none
      last_shutdown_ut := none
      last_dead_ut := []
      system := system
      file := file
      time_format := "short"
      users := none }
  match last.exec source with
  | .ok lines => (0, lines)
  | .error _ => (1, [])

/-! ## Supporting lemmas -/

theorem pad2zero_length {n : Int} (h1 : 0 ≤ n) (h2 : n ≤ 99) :
    (pad2zero n).length = 2 := by
  interval_cases n <;> rfl

theorem day_padded_length {d : Int} (h1 : 1 ≤ d) (h2 : d ≤ 31) :
    (day_padded d).length = 2 := by
  interval_cases d <;> rfl

theorem month_abbrev_length {m : Int} (h1 : 1 ≤ m) (h2 : m ≤ 12) :
    (month_abbrev m).length = 3 := by
  interval_cases m <;> rfl

set_option maxHeartbeats 2000000 in
theorem civil_month_day_bounds (days : Int) :
    1 ≤ (civil_month_day days).1 ∧ (civil_month_day days).1 ≤ 12 ∧
    1 ≤ (civil_month_day days).2 ∧ (civil_month_day days).2 ≤ 31 := by
  unfold civil_month_day
  dsimp only
  split <;> omega

theorem format_short_length (t : Int) : (format_short t).length = 12 := by
  unfold format_short
  dsimp only
  have hmd := civil_month_day_bounds (t / 1000000000 / 86400)
  have hsod : 0 ≤ t / 1000000000 % 86400 ∧ t / 1000000000 % 86400 < 86400 := by omega
  have hh : 0 ≤ t / 1000000000 % 86400 / 3600 ∧ t / 1000000000 % 86400 / 3600 ≤ 23 := by omega
  have hm : 0 ≤ t / 1000000000 % 86400 % 3600 / 60 ∧
      t / 1000000000 % 86400 % 3600 / 60 ≤ 59 := by omega
  simp only [String.length_append]
  rw [month_abbrev_length hmd.1 hmd.2.1, day_padded_length hmd.2.2.1 hmd.2.2.2,
    pad2zero_length hh.1 (by omega), pad2zero_length hm.1 (by omega)]
  decide

theorem paren_shape1 (a b c : String) :
    ∃ mid, "(" ++ a ++ "+" ++ b ++ ":" ++ c ++ ")" = "(" ++ mid ++ ")" :=
  ⟨a ++ "+" ++ b ++ ":" ++ c, by simp [String.append_assoc]⟩

theorem paren_shape2 (b c : String) :
    ∃ mid, "(" ++ b ++ ":" ++ c ++ ")" = "(" ++ mid ++ ")" :=
  ⟨b ++ ":" ++ c, by simp [String.append_assoc]⟩

theorem duration_string_paren (d : Int) :
    ∃ mid, duration_string d = "(" ++ mid ++ ")" := by
  unfold duration_string
  dsimp only
  split
  · exact paren_shape1 _ _ _
  · exact paren_shape2 _ _

/-! ## Concrete sample records and states -/

def user_record : Utmpx :=
  { user := "alice", tty_device := "tty1", host := "", pid := 1,
    login_time := 0, is_user_process := true }

def dead_record_early : Utmpx :=
  { user := "", tty_device := "tty1", host := "", pid := 0,
    login_time := 60 * 1000000000, is_user_process := false }

def dead_record_late : Utmpx :=
  { user := "", tty_device := "tty1", host := "", pid := 0,
    login_time := 7200 * 1000000000, is_user_process := false }

def reboot_record : Utmpx :=
  { user := "reboot", tty_device := "~", host := "", pid := 0,
    login_time := 86400 * 1000000000, is_user_process := false }

def shutdown_record : Utmpx :=
  { user := "shutdown", tty_device := "~", host := "", pid := 0,
    login_time := 86400 * 1000000000, is_user_process := false }

def runlevel_record_259 : Utmpx :=
  { user := "runlevel", tty_device := "~", host := "", pid := 259,
    login_time := 0, is_user_process := false }

def runlevel_record_307 : Utmpx :=
  { user := "runlevel", tty_device := "~", host := "", pid := 307,
    login_time := 0, is_user_process := false }

def base_last : Last :=
  { last_reboot_ut := none, last_shutdown_ut := none, last_dead_ut := [],
    system := false, file := "/var/log/wtmp", time_format := "short", users := none }

def system_last : Last := { base_last with system := true }

def tie_last : Last :=
  { base_last with last_reboot_ut := some reboot_record,
                   last_shutdown_ut := some shutdown_record }

/-! ## C1: end-state resolution when reboot and shutdown times are equal -/

/-- C1 (counterexample): with `last_reboot.login_time = last_shutdown.login_time`
(both one day after the epoch) and a user-session record, the resolution
selects the shutdown branch and produces the end marker "down" — not
"crash" as the claim states. -/
theorem C1_counterexample :
    Last.end_state_string tie_last user_record none = ("down", "(1+00:00)") ∧
    (Last.end_state_string tie_last user_record none).1 ≠ "crash" := by
  constructor <;> decide

/-- C1 (amended): when `last_reboot.login_time` equals
`last_shutdown.login_time` and no dead-process record matched, the
resolution selects shutdown: a user-session record gets end marker
"down" (never "crash"), and the duration is computed against the
shutdown time. -/
theorem C1_tie_selects_shutdown (s : Last) (ut r sh : Utmpx)
    (h1 : s.last_reboot_ut = some r) (h2 : s.last_shutdown_ut = some sh)
    (h3 : r.login_time = sh.login_time) :
    Last.end_state_string s ut none =
      (s.end_time_string (if ut.is_user_process then some "down" else none) sh.login_time,
       duration_string (calculate_time_delta ut.login_time sh.login_time)) := by
  unfold Last.end_state_string
  rw [h1, h2]
  simp [h3]

/-- Witness for C1: the tie state applied at a concrete user record. -/
theorem C1_witness :
    Last.end_state_string tie_last user_record none =
      (Last.end_time_string tie_last
        (if user_record.is_user_process then some "down" else none)
        shutdown_record.login_time,
       duration_string (calculate_time_delta user_record.login_time
         shutdown_record.login_time)) :=
  C1_tie_selects_shutdown tie_last user_record reboot_record shutdown_record rfl rfl rfl

/-! ## C3: run-level decoding -/

/-- C3 (counterexample): a run-level record with `pid = 259` does not
render the line field "(to lvl 3)": `259 % 256 = 3` is the control
character U+0003, not the digit character. -/
theorem C3_counterexample :
    Last.print_runlevel system_last runlevel_record_259 ≠
      some (print_line RUN_LEVEL_STR "(to lvl 3)"
        (Last.time_string system_last runlevel_record_259)
        runlevel_record_259.host
        (Last.end_state_string system_last runlevel_record_259 none).1
        (Last.end_state_string system_last runlevel_record_259 none).2) := by
  decide

/-- C3 (amended): with system events enabled the target run level is
decoded as the character with code `pid % 256`; a record with
`pid = 259` decodes the control character with code 3 and renders
"(to lvl \x03)", while `pid = 307` (`307 % 256 = 51`, the digit 3)
renders "(to lvl 3)". -/
theorem C3_runlevel_decode :
    (∀ (s : Last) (ut : Utmpx), s.system = true →
      Last.print_runlevel s ut =
        some (print_line RUN_LEVEL_STR
          ("(to lvl " ++ String.mk [Char.ofNat ((Int.tmod ut.pid 256 % 256).toNat)] ++ ")")
          (s.time_string ut) ut.host
          (Last.end_state_string s ut none).1 (Last.end_state_string s ut none).2)) ∧
    Last.print_runlevel system_last runlevel_record_259 =
      some "runlevel (to lvl \x03)                    Jan  1 00:00 -  - still running" ∧
    Last.print_runlevel system_last runlevel_record_307 =
      some "runlevel (to lvl 3)                    Jan  1 00:00 -  - still running" := by
  refine ⟨?_, by decide, by decide⟩
  intro s ut h
  unfold Last.print_runlevel
  rw [h]
  simp

/-- Witness for C3: the general decoding rule applied at the concrete
`pid = 259` record. -/
theorem C3_witness :
    Last.print_runlevel system_last runlevel_record_259 =
      some (print_line RUN_LEVEL_STR
        ("(to lvl "
          ++ String.mk [Char.ofNat ((Int.tmod runlevel_record_259.pid 256 % 256).toNat)]
          ++ ")")
        (Last.time_string system_last runlevel_record_259) runlevel_record_259.host
        (Last.end_state_string system_last runlevel_record_259 none).1
        (Last.end_state_string system_last runlevel_record_259 none).2) :=
  C3_runlevel_decode.1 system_last runlevel_record_259 rfl

/-! ## C4: fatal source failure, exit codes -/

/-- C4: if the record source cannot be opened the run aborts with a
non-zero exit code before producing any output line; on success the
exit code is 0. -/
theorem C4_exit_codes :
    (∀ (sys : Bool) (f e : String), uumain_model sys f (Except.error e) = (1, [])) ∧
    (∀ (sys : Bool) (f : String) (recs : List Utmpx),
      (uumain_model sys f (Except.ok recs)).1 = 0) :=
  ⟨fun _ _ _ => rfl, fun _ _ _ => rfl⟩

/-! ## C6: duration formatting -/

/-- C6: for every non-negative duration the delta decomposes into whole
days, hours below 24 and minutes below 60, seconds are discarded, and
the rendering is "(D+HH:MM)" when days are positive and "(HH:MM)"
otherwise; 90000 seconds render "(1+01:00)" and 3661 seconds "(01:01)". -/
theorem C6_duration_format :
    (∀ d : Int, 0 ≤ d →
      ∃ days hours minutes r,
        whole_seconds d = ((days * 24 + hours) * 60 + minutes) * 60 + r ∧
        0 ≤ days ∧ 0 ≤ hours ∧ hours < 24 ∧ 0 ≤ minutes ∧ minutes < 60 ∧
        0 ≤ r ∧ r < 60 ∧
        duration_string d =
          (if 0 < days then
            "(" ++ toString days ++ "+" ++ pad2zero hours ++ ":" ++ pad2zero minutes ++ ")"
          else
            "(" ++ pad2zero hours ++ ":" ++ pad2zero minutes ++ ")")) ∧
    duration_string (90000 * 1000000000) = "(1+01:00)" ∧
    duration_string (3661 * 1000000000) = "(01:01)" := by
  refine ⟨?_, by decide, by decide⟩
  intro d hd
  have h9 : Int.tdiv d 1000000000 = d / 1000000000 := Int.tdiv_eq_ediv hd (by norm_num)
  set s := d / 1000000000 with hs_def
  have hs0 : 0 ≤ s := Int.ediv_nonneg hd (by norm_num)
  have e1 : whole_seconds d = s := by unfold whole_seconds; rw [h9]
  have hdays : Int.tdiv s 86400 = s / 86400 := Int.tdiv_eq_ediv hs0 (by norm_num)
  have e2 : s - s / 86400 * 86400 = s % 86400 := by omega
  have hhours : Int.tdiv (s % 86400) 3600 = s % 86400 / 3600 :=
    Int.tdiv_eq_ediv (by omega) (by norm_num)
  have e3 : s % 86400 - s % 86400 / 3600 * 3600 = s % 86400 % 3600 := by omega
  have hmin : Int.tdiv (s % 86400 % 3600) 60 = s % 86400 % 3600 / 60 :=
    Int.tdiv_eq_ediv (by omega) (by norm_num)
  refine ⟨s / 86400, s % 86400 / 3600, s % 86400 % 3600 / 60, s % 60,
    ?_, by omega, by omega, by omega, by omega, by omega, by omega, by omega, ?_⟩
  · rw [e1]; omega
  · simp only [duration_string, whole_seconds]
    rw [h9, hdays, e2, hhours, e3, hmin]

/-- Witness for C6: evaluation of the general decomposition at a
one-hour one-minute delta. -/
theorem C6_witness :
    ∃ days hours minutes r,
      whole_seconds (3661 * 1000000000) = ((days * 24 + hours) * 60 + minutes) * 60 + r ∧
      0 ≤ days ∧ 0 ≤ hours ∧ hours < 24 ∧ 0 ≤ minutes ∧ minutes < 60 ∧
      0 ≤ r ∧ r < 60 ∧
      duration_string (3661 * 1000000000) =
        (if 0 < days then
          "(" ++ toString days ++ "+" ++ pad2zero hours ++ ":" ++ pad2zero minutes ++ ")"
        else
          "(" ++ pad2zero hours ++ ":" ++ pad2zero minutes ++ ")") :=
  C6_duration_format.1 (3661 * 1000000000) (by norm_num)

/-! ## C7: totality of the time-delta computation -/

/-- C7: for every pair of instants — including a negative delta when
`earlier` postdates `later` — the two `unwrap` calls never fail (the
checked pipeline returns `some`) and the rendering always produces a
parenthesised string. -/
theorem C7_delta_total (curr last : Int) :
    calculate_time_delta_checked curr last = some (calculate_time_delta curr last) ∧
    ∃ mid, duration_string (calculate_time_delta curr last) = "(" ++ mid ++ ")" := by
  constructor
  · have h1 : (curr % 1000000000).toNat < 2147483648 := by omega
    have h2 : (last % 1000000000).toNat < 2147483648 := by omega
    simp [calculate_time_delta_checked, try_into_i32, nanosecond, h1, h2,
      calculate_time_delta]
  · exact duration_string_paren _

/-! ## C8: still-open sessions -/

/-- C8: with no matched dead-process record and neither a reboot nor a
shutdown known, the end marker is " - still logged in" for user-session
records and " - still running" otherwise, with an empty duration. -/
theorem C8_still_open (s : Last) (ut : Utmpx)
    (h1 : s.last_reboot_ut = none) (h2 : s.last_shutdown_ut = none) :
    (Last.end_state_string s ut none).1 =
      (if ut.is_user_process then " - still logged in" else " - still running") ∧
    (Last.end_state_string s ut none).2 = "" := by
  unfold Last.end_state_string
  rw [h1, h2]
  by_cases h : ut.is_user_process <;> simp [h]

/-- Witness for C8: a concrete user record in the empty state. -/
theorem C8_witness :
    Last.end_state_string base_last user_record none = (" - still logged in", "") := by
  have h := C8_still_open base_last user_record rfl rfl
  exact Prod.ext (h.1.trans (by decide)) h.2

/-! ## C9: gating of emitted lines by the system flag -/

/-- C9: a reboot record always emits exactly its line, regardless of the
`system` flag, while run-level-change and shutdown records emit a line
only when the flag is set (for run-level records, exactly when it is
set). -/
theorem C9_system_gating (s : Last) (ut : Utmpx) :
    (ut.is_user_process = false → ut.user = "reboot" →
      (Last.step s ut).2 = [Last.print_reboot s ut]) ∧
    (ut.is_user_process = false → ut.user = "runlevel" →
      ((Last.step s ut).2 ≠ [] ↔ s.system = true)) ∧
    (ut.is_user_process = false → ut.user = "shutdown" →
      (Last.step s ut).2 ≠ [] → s.system = true) := by
  refine ⟨?_, ?_, ?_⟩
  · intro h1 h2
    simp [Last.step, h1, h2, RUN_LEVEL_STR, SHUTDOWN_STR, REBOOT_STR]
  · intro h1 h2
    by_cases hs : s.system
    · simp [Last.step, h1, h2, RUN_LEVEL_STR, Last.print_runlevel, hs]
    · simp [Last.step, h1, h2, RUN_LEVEL_STR, Last.print_runlevel, hs]
  · intro h1 h2 h3
    by_cases hs : s.system
    · exact hs
    · exfalso
      apply h3
      simp [Last.step, h1, h2, SHUTDOWN_STR, RUN_LEVEL_STR, Last.print_shutdown, hs]

/-- Witness for C9: a concrete reboot record emits with the flag off, a
concrete run-level record emits with the flag on, and a concrete
shutdown record's emission implies the flag. -/
theorem C9_witness :
    (Last.step base_last reboot_record).2 = [Last.print_reboot base_last reboot_record] ∧
    (Last.step system_last runlevel_record_259).2 ≠ [] ∧
    system_last.system = true :=
  ⟨(C9_system_gating base_last reboot_record).1 rfl rfl,
   ((C9_system_gating system_last runlevel_record_259).2.1 rfl rfl).mpr rfl,
   (C9_system_gating system_last shutdown_record).2.2 rfl rfl (by decide)⟩

/-! ## C2: correlation of dead-process records -/

theorem filter_eq_singleton_decomp {α : Type} {p : α → Bool} {l : List α} {d : α}
    (h : l.filter p = [d]) :
    ∃ A B, l = A ++ d :: B ∧ A.filter p = [] ∧ B.filter p = [] ∧ p d = true := by
  induction l with
  | nil => simp at h
  | cons x xs ih =>
    by_cases hx : p x
    · rw [List.filter_cons_of_pos hx] at h
      have h1 : x = d := by injection h
      have h2 : xs.filter p = [] := by injection h
      exact ⟨[], xs, by simp [h1], rfl, h2, h1 ▸ hx⟩
    · rw [List.filter_cons_of_neg hx] at h
      obtain ⟨A, B, hl, hA, hB, hd⟩ := ih h
      exact ⟨x :: A, B, by simp [hl], by simp [List.filter_cons_of_neg hx, hA], hB, hd⟩

theorem position_append {α : Type} {p : α → Bool} {A : List α} (hA : A.filter p = [])
    {d : α} (hd : p d = true) (B : List α) :
    position p (A ++ d :: B) = some A.length := by
  induction A with
  | nil => simp [position, hd]
  | cons x xs ih =>
    have hx : ¬ p x = true := by
      intro hc
      rw [List.filter_cons_of_pos hc] at hA
      exact List.cons_ne_nil _ _ hA
    have hxs : xs.filter p = [] := by
      rw [List.filter_cons_of_neg hx] at hA
      exact hA
    simp [position, hx, ih hxs]

theorem getD_append_length {α : Type} [Inhabited α] (A : List α) (d x : α) (B : List α) :
    (A ++ d :: B).getD A.length x = d := by
  induction A with
  | nil => rfl
  | cons a as ih => simpa using ih

theorem set_append_length {α : Type} (A : List α) (x z : α) (B : List α) :
    (A ++ x :: B).set A.length z = A ++ z :: B := by
  induction A with
  | nil => rfl
  | cons a as ih => simp [List.set, ih]

theorem swap_remove_filter_nil {α : Type} {p : α → Bool} {A B : List α} {d : α}
    (hA : A.filter p = []) (hB : B.filter p = []) :
    (swap_remove (A ++ d :: B) A.length).filter p = [] := by
  rcases List.eq_nil_or_concat B with hBnil | ⟨C, z, hBC⟩
  · subst hBnil
    unfold swap_remove
    rw [List.getLast?_concat]
    dsimp only
    rw [set_append_length, List.dropLast_concat]
    exact hA
  · rw [List.concat_eq_append] at hBC
    subst hBC
    have hzC : (C.filter p = []) ∧ (p z = false) := by
      rw [List.filter_append] at hB
      rcases List.append_eq_nil.mp hB with ⟨h1, h2⟩
      refine ⟨h1, ?_⟩
      by_cases hz : p z
      · rw [List.filter_cons_of_pos hz] at h2; exact absurd h2 (List.cons_ne_nil _ _)
      · simpa using hz
    unfold swap_remove
    have hlast : (A ++ d :: (C ++ [z])).getLast? = some z := by
      rw [show A ++ d :: (C ++ [z]) = (A ++ d :: C) ++ [z] by simp]
      exact List.getLast?_concat _
    rw [hlast]
    dsimp only
    rw [set_append_length,
      show A ++ z :: (C ++ [z]) = (A ++ z :: C) ++ [z] by simp,
      List.dropLast_concat, List.filter_append, hA,
      List.filter_cons_of_neg (by simp [hzC.2]), hzC.1]
    rfl

theorem swap_remove_length {α : Type} (l : List α) (i : Nat) (hne : l ≠ []) :
    (swap_remove l i).length + 1 = l.length := by
  unfold swap_remove
  cases hl : l.getLast? with
  | none => exact absurd (List.getLast?_eq_none_iff.mp hl) hne
  | some z =>
    dsimp only
    rw [List.length_dropLast, List.length_set]
    have := List.length_pos.mpr hne
    omega

/-- C2 (counterexample): with log-order input user, dead at 60 s, dead
at 7200 s — all on tty1 — the emitted line for the user session carries
the end time and duration of the *later* dead record (02:00), not of the
chronologically nearest one after the login (00:01). -/
theorem C2_counterexample :
    Last.exec_lines base_last [user_record, dead_record_early, dead_record_late]
      = ["alice    tty1                          Jan  1 00:00 - 02:00    (02:00)"] ∧
    "alice    tty1                          Jan  1 00:00 - 02:00    (02:00)" ≠
      print_line user_record.user user_record.tty_device
        (Last.time_string base_last user_record) user_record.host
        (clock_string dead_record_early.login_time)
        (duration_string (calculate_time_delta user_record.login_time
          dead_record_early.login_time)) := by
  constructor <;> decide

/-- C2 (amended): a user-session record is matched with the dead-process
record at the first matching position of the pending-dead list; in
particular, when exactly one unconsumed dead-process record `d` exists
for the record's device, `d` is matched, the reported duration is
`d.login_time - u.login_time`, and `d` is consumed (no pending dead
record for that device remains), so each dead-process record is consumed
by at most one user-session record. -/
theorem C2_unique_dead_match (s : Last) (ut d : Utmpx)
    (hu : ut.is_user_process = true)
    (hf : s.last_dead_ut.filter (fun du => ut.tty_device == du.tty_device) = [d]) :
    ∃ s', Last.step s ut = (s', [Last.print_user s' ut (some d)]) ∧
      Last.print_user s' ut (some d) =
        print_line ut.user ut.tty_device (Last.time_string s' ut) ut.host
          (Last.end_time_string s' none d.login_time)
          (duration_string (calculate_time_delta ut.login_time d.login_time)) ∧
      s'.last_dead_ut.filter (fun du => ut.tty_device == du.tty_device) = [] ∧
      s'.last_dead_ut.length + 1 = s.last_dead_ut.length := by
  obtain ⟨A, B, hl, hA, hB, hd⟩ := filter_eq_singleton_decomp hf
  have hpos : position (fun du => ut.tty_device == du.tty_device) s.last_dead_ut
      = some A.length := by
    rw [hl]; exact position_append hA hd B
  have hgd : s.last_dead_ut.getD A.length default = d := by
    rw [hl]; exact getD_append_length A d default B
  refine ⟨{ s with last_dead_ut := swap_remove s.last_dead_ut A.length }, ?_, rfl, ?_, ?_⟩
  · simp only [Last.step, hu, if_true]
    rw [hpos]
    dsimp only
    rw [hgd]
  · show (swap_remove s.last_dead_ut A.length).filter _ = []
    rw [hl]
    exact swap_remove_filter_nil hA hB
  · show (swap_remove s.last_dead_ut A.length).length + 1 = _
    apply swap_remove_length
    rw [hl]
    simp

/-- Witness for C2: the unique-pending-dead case applied at a concrete
user record and dead record. -/
theorem C2_witness :
    ∃ s', Last.step { base_last with last_dead_ut := [dead_record_early] } user_record
        = (s', [Last.print_user s' user_record (some dead_record_early)]) ∧
      Last.print_user s' user_record (some dead_record_early) =
        print_line user_record.user user_record.tty_device
          (Last.time_string s' user_record) user_record.host
          (Last.end_time_string s' none dead_record_early.login_time)
          (duration_string (calculate_time_delta user_record.login_time
            dead_record_early.login_time)) ∧
      s'.last_dead_ut.filter
        (fun du => user_record.tty_device == du.tty_device) = [] ∧
      s'.last_dead_ut.length + 1 =
        ({ base_last with last_dead_ut := [dead_record_early] } : Last).last_dead_ut.length :=
  C2_unique_dead_match { base_last with last_dead_ut := [dead_record_early] }
    user_record dead_record_early rfl (by decide)

/-! ## C5: the shape of every emitted report line -/

theorem pad_right_of_le {w : Nat} {s : String} (h : w ≤ s.length) : pad_right w s = s := by
  unfold pad_right
  have h0 : w - s.length = 0 := by omega
  rw [h0]
  cases s
  simp [String.append]

theorem time_string_short {s : Last} (h : s.time_format = "short") (ut : Utmpx) :
    Last.time_string s ut = format_short ut.login_time := by
  unfold Last.time_string
  rw [h]
  rfl

theorem print_user_shape (s' : Last) (hf : s'.time_format = "short") (ut : Utmpx)
    (dd : Option Utmpx) :
    ∃ u li h e d, Last.print_user s' ut dd = print_line u li (format_short ut.login_time) h e d :=
  ⟨ut.user, ut.tty_device, ut.host,
    (Last.end_state_string s' ut dd).1, (Last.end_state_string s' ut dd).2, by
      unfold Last.print_user
      rw [time_string_short hf]⟩

theorem print_runlevel_mem_shape {s : Last} (hf : s.time_format = "short") {ut : Utmpx}
    {l : String} (hl : l ∈ (Last.print_runlevel s ut).toList) :
    ∃ u li h e d, l = print_line u li (format_short ut.login_time) h e d := by
  unfold Last.print_runlevel at hl
  split at hl
  · simp only [Option.toList_some, List.mem_singleton] at hl
    rw [hl]
    exact ⟨RUN_LEVEL_STR,
      "(to lvl " ++ String.mk [Char.ofNat ((Int.tmod ut.pid 256 % 256).toNat)] ++ ")",
      ut.host, (Last.end_state_string s ut none).1, (Last.end_state_string s ut none).2,
      by rw [time_string_short hf]⟩
  · simp at hl

theorem print_shutdown_mem_shape {s : Last} (hf : s.time_format = "short") {ut : Utmpx}
    {l : String} (hl : l ∈ (Last.print_shutdown s ut).toList) :
    ∃ u li h e d, l = print_line u li (format_short ut.login_time) h e d := by
  unfold Last.print_shutdown at hl
  split at hl
  · split at hl
    · simp only [Option.toList_some, List.mem_singleton] at hl
      rw [hl]
      exact ⟨SHUTDOWN_STR, "system down", ut.host,
        (Last.end_state_string s ut none).1, (Last.end_state_string s ut none).2,
        by rw [time_string_short hf]⟩
    · simp at hl
  · simp at hl

theorem print_reboot_shape (s : Last) (hf : s.time_format = "short") (ut : Utmpx) :
    ∃ u li h e d, Last.print_reboot s ut = print_line u li (format_short ut.login_time) h e d :=
  ⟨REBOOT_STR, "system boot", ut.host,
    (Last.end_state_string s ut none).1, (Last.end_state_string s ut none).2, by
      unfold Last.print_reboot
      rw [time_string_short hf]⟩

theorem step_time_format (s : Last) (ut : Utmpx) :
    (Last.step s ut).1.time_format = s.time_format := by
  unfold Last.step
  repeat' split
  all_goals rfl

theorem step_line_shape {s : Last} {ut : Utmpx} {l : String}
    (hfmt : s.time_format = "short") (hl : l ∈ (Last.step s ut).2) :
    ∃ u li h e d, l = print_line u li (format_short ut.login_time) h e d := by
  unfold Last.step at hl
  split at hl
  · split at hl
    · rename_i pos heq
      dsimp only at hl
      rw [List.mem_singleton] at hl
      rw [hl]
      exact print_user_shape { s with last_dead_ut := swap_remove s.last_dead_ut pos }
        hfmt ut (some (s.last_dead_ut.getD pos default))
    · dsimp only at hl
      rw [List.mem_singleton] at hl
      rw [hl]
      exact print_user_shape s hfmt ut none
  · split at hl
    · exact print_runlevel_mem_shape hfmt hl
    · split at hl
      · exact print_shutdown_mem_shape hfmt hl
      · split at hl
        · dsimp only at hl
          rw [List.mem_singleton] at hl
          rw [hl]
          exact print_reboot_shape s hfmt ut
        · split at hl
          · simp at hl
          · simp at hl

theorem run_line_shape : ∀ (uts : List Utmpx) (s : Last) (l : String),
    s.time_format = "short" → l ∈ (Last.run s uts).2 →
    ∃ (ut : Utmpx) (u li h e d : String),
      l = print_line u li (format_short ut.login_time) h e d := by
  intro uts
  induction uts with
  | nil =>
    intro s l _ hl
    simp [Last.run] at hl
  | cons ut rest ih =>
    intro s l hfmt hl
    rw [show Last.run s (ut :: rest) = ((Last.run (Last.step s ut).1 rest).1,
      (Last.step s ut).2 ++ (Last.run (Last.step s ut).1 rest).2) from rfl] at hl
    dsimp only at hl
    rw [List.mem_append] at hl
    rcases hl with hl | hl
    · obtain ⟨u, li, h, e, d, hld⟩ := step_line_shape hfmt hl
      exact ⟨ut, u, li, h, e, d, hld⟩
    · exact ih (Last.step s ut).1 l (by rw [step_time_format]; exact hfmt) hl

/-- A user record whose host is nine two-byte characters (18 UTF-8
bytes): byte offset 16 is a character boundary after eight characters,
so the program truncates the host to eight characters, not to its first
sixteen characters (which would be the whole nine-character host). -/
def user_host9_record : Utmpx :=
  { user := "alice", tty_device := "tty1", host := "ééééééééé", pid := 1,
    login_time := 0, is_user_process := true }

/-- C5 (counterexample): for a user record with a nine-character,
18-byte host, the emitted line truncates the host to its first 16
*bytes* (eight characters) and therefore differs from the layout the
claim predicts, whose host column would be the record's host truncated
to its first 16 characters (here the whole host). -/
theorem C5_counterexample :
    (Last.run base_last [user_host9_record]).2 =
      ["alice    tty1         éééééééé         Jan  1 00:00 -  - still logged in"] ∧
    "alice    tty1         éééééééé         Jan  1 00:00 -  - still logged in" ≠
      trim_end (pad_right 8 user_host9_record.user ++ " "
        ++ pad_right 12 user_host9_record.tty_device ++ " "
        ++ pad_right 16 (String.mk (user_host9_record.host.data.take 16)) ++ " "
        ++ format_short user_host9_record.login_time ++ " - "
        ++ pad_right 8 " - still logged in" ++ " " ++ center_pad 6 "") := by
  constructor <;> decide

/-- C5 (amended): every line emitted by a run (in the "short" time
format the tool always uses) is the trailing-whitespace-trimmed
concatenation of left-aligned space-separated columns: user padded to
8, line padded to 12, host truncated to its first 16 bytes when byte
offset 16 falls on a character boundary (for ASCII hosts, its first 16
characters) and left untruncated otherwise, padded to 16, the start
time occupying exactly 12 characters, the literal " - " plus the end
marker padded to 8, and the duration centered in width 6. -/
theorem C5_emitted_line_columns (s : Last) (uts : List Utmpx) (l : String)
    (hfmt : s.time_format = "short") (hl : l ∈ (Last.run s uts).2) :
    ∃ (u li h t e d : String), t.length = 12 ∧
      l = trim_end (pad_right 8 u ++ " " ++ pad_right 12 li ++ " "
        ++ pad_right 16 ((str_get_0_16 h).getD h) ++ " " ++ t
        ++ " - " ++ pad_right 8 e ++ " " ++ center_pad 6 d) := by
  obtain ⟨ut, u, li, h, e, d, rfl⟩ := run_line_shape uts s l hfmt hl
  refine ⟨u, li, h, format_short ut.login_time, e, d, format_short_length _, ?_⟩
  unfold print_line
  dsimp only
  rw [@pad_right_of_le 10 (format_short ut.login_time) (by rw [format_short_length]; omega)]

/-- Witness for C5: the column decomposition of a concrete emitted
still-logged-in line. -/
theorem C5_witness :
    ∃ (u li h t e d : String), t.length = 12 ∧
      "alice    tty1                          Jan  1 00:00 -  - still logged in"
        = trim_end (pad_right 8 u ++ " " ++ pad_right 12 li ++ " "
          ++ pad_right 16 ((str_get_0_16 h).getD h) ++ " " ++ t
          ++ " - " ++ pad_right 8 e ++ " " ++ center_pad 6 d) :=
  C5_emitted_line_columns base_last [user_record]
    "alice    tty1                          Jan  1 00:00 -  - still logged in"
    rfl (by decide)

/-! ## C10: the system flag gates only line emission -/

theorem run_nil (s : Last) : Last.run s [] = (s, []) := rfl

theorem run_cons (s : Last) (ut : Utmpx) (rest : List Utmpx) :
    Last.run s (ut :: rest) = ((Last.run (Last.step s ut).1 rest).1,
      (Last.step s ut).2 ++ (Last.run (Last.step s ut).1 rest).2) := rfl

theorem run_tagged_nil (s : Last) : Last.run_tagged s [] = (s, []) := rfl

theorem run_tagged_cons (s : Last) (ut : Utmpx) (rest : List Utmpx) :
    Last.run_tagged s (ut :: rest) = ((Last.run_tagged (Last.step s ut).1 rest).1,
      (Last.step s ut).2.map (fun l => (ut, l))
        ++ (Last.run_tagged (Last.step s ut).1 rest).2) := rfl

theorem step_state_system (s : Last) (ut : Utmpx) (b : Bool) :
    (Last.step { s with system := b } ut).1 = { (Last.step s ut).1 with system := b } := by
  unfold Last.step
  dsimp only
  repeat' split
  all_goals rfl

theorem step_lines_indep (s : Last) (ut : Utmpx) (b : Bool)
    (hq : ut.is_user_process = true ∨ ut.user = "reboot") :
    (Last.step { s with system := b } ut).2 = (Last.step s ut).2 := by
  by_cases hup : ut.is_user_process
  · unfold Last.step
    dsimp only
    simp only [hup, if_true]
    split
    · rfl
    · rfl
  · rcases hq with hq | hq
    · exact absurd hq hup
    · unfold Last.step
      dsimp only
      simp only [hup, hq]
      rfl

theorem step_lines_sysfalse (s : Last) (ut : Utmpx)
    (h1 : ut.is_user_process = false) (h2 : ut.user ≠ "reboot") :
    (Last.step { s with system := false } ut).2 = [] := by
  unfold Last.step
  dsimp only
  simp only [h1]
  split
  · simp at *
  · split
    · unfold Last.print_runlevel
      rfl
    · split
      · unfold Last.print_shutdown
        dsimp only
        split
        · rfl
        · rfl
      · split
        · rename_i hc
          exact absurd (eq_of_beq hc) h2
        · split
          · rfl
          · rfl

theorem filter_tagged (ut : Utmpx) (L : List String) :
    ((L.map (fun l => (ut, l))).filter
        (fun p => p.1.is_user_process || p.1.user == "reboot")).map Prod.snd
      = if (ut.is_user_process || ut.user == "reboot") then L else [] := by
  induction L with
  | nil => simp
  | cons x xs ih =>
    by_cases hq : (ut.is_user_process || ut.user == "reboot") = true
    · simp only [hq, if_true] at ih
      simp [hq, ih]
    · have hq' : (ut.is_user_process || ut.user == "reboot") = false := by
        simpa using hq
      simp only [hq', Bool.false_eq_true, if_false] at ih
      simp [hq', ih]

theorem run_tagged_snd : ∀ (uts : List Utmpx) (s : Last),
    (Last.run_tagged s uts).2.map Prod.snd = (Last.run s uts).2 := by
  intro uts
  induction uts with
  | nil => intro s; rfl
  | cons ut rest ih =>
    intro s
    rw [run_cons, run_tagged_cons]
    dsimp only
    rw [List.map_append, ih]
    congr 1
    rw [List.map_map]
    simp

theorem run_system_filter : ∀ (uts : List Utmpx) (s : Last),
    (Last.run { s with system := false } uts).2
      = ((Last.run_tagged { s with system := true } uts).2.filter
          (fun p => p.1.is_user_process || p.1.user == "reboot")).map Prod.snd := by
  intro uts
  induction uts with
  | nil => intro s; rfl
  | cons ut rest ih =>
    intro s
    rw [run_cons, run_tagged_cons]
    dsimp only
    rw [List.filter_append, List.map_append, filter_tagged]
    rw [step_state_system s ut false, step_state_system s ut true]
    congr 1
    · by_cases hq : (ut.is_user_process || ut.user == "reboot") = true
      · rw [if_pos hq]
        have hq2 : ut.is_user_process = true ∨ ut.user = "reboot" := by
          rcases Bool.or_eq_true_iff.mp hq with h | h
          · exact Or.inl h
          · exact Or.inr (eq_of_beq h)
        rw [step_lines_indep s ut false hq2, step_lines_indep s ut true hq2]
      · have hq' : (ut.is_user_process || ut.user == "reboot") = false := by
          simpa using hq
        rw [if_neg hq]
        have h1 : ut.is_user_process = false := by
          rcases Bool.or_eq_false_iff.mp hq' with ⟨ha, _⟩
          exact ha
        have h2 : ut.user ≠ "reboot" := by
          rcases Bool.or_eq_false_iff.mp hq' with ⟨_, hb⟩
          intro hc
          rw [hc] at hb
          simp at hb
        exact step_lines_sysfalse s ut h1 h2
    · exact ih (Last.step s ut).1

theorem step_emit_kind {s : Last} {ut : Utmpx} {l : String}
    (hl : l ∈ (Last.step s ut).2) :
    ut.is_user_process = true ∨ ut.user = "reboot" ∨ ut.user = "runlevel"
      ∨ ut.user = "shutdown" := by
  unfold Last.step at hl
  split at hl
  · rename_i h; exact Or.inl h
  · split at hl
    · rename_i h; exact Or.inr (Or.inr (Or.inl (eq_of_beq h)))
    · split at hl
      · rename_i h; exact Or.inr (Or.inr (Or.inr (eq_of_beq h)))
      · split at hl
        · rename_i h; exact Or.inr (Or.inl (eq_of_beq h))
        · split at hl
          · simp at hl
          · simp at hl

theorem run_tagged_kinds : ∀ (uts : List Utmpx) (s : Last),
    ∀ p ∈ (Last.run_tagged s uts).2,
      p.1.is_user_process = true ∨ p.1.user = "reboot" ∨ p.1.user = "runlevel"
        ∨ p.1.user = "shutdown" := by
  intro uts
  induction uts with
  | nil => intro s p hp; simp [run_tagged_nil] at hp
  | cons ut rest ih =>
    intro s p hp
    rw [run_tagged_cons] at hp
    dsimp only at hp
    rw [List.mem_append] at hp
    rcases hp with hp | hp
    · rw [List.mem_map] at hp
      obtain ⟨l, hl, rfl⟩ := hp
      exact step_emit_kind hl
    · exact ih (Last.step s ut).1 p hp

/-- C10: for every initial state and record sequence, the run with the
system flag off emits exactly the lines of the flag-on run whose
originating record is a user-session or reboot record (in the same order
and character-identical), and every other emitted line of the flag-on
run originates from a run-level or shutdown record; the state evolution
is the same in both runs (the flag gates only line emission). -/
theorem C10_system_flag_noninterference (s : Last) (uts : List Utmpx) :
    (Last.run { s with system := true } uts).2
      = (Last.run_tagged { s with system := true } uts).2.map Prod.snd ∧
    (Last.run { s with system := false } uts).2
      = ((Last.run_tagged { s with system := true } uts).2.filter
          (fun p => p.1.is_user_process || p.1.user == "reboot")).map Prod.snd ∧
    (∀ p ∈ (Last.run_tagged { s with system := true } uts).2,
      p.1.is_user_process = false → p.1.user ≠ "reboot" →
      p.1.user = "runlevel" ∨ p.1.user = "shutdown") :=
  ⟨(run_tagged_snd uts _).symm, run_system_filter uts s, fun p hp h1 h2 => by
    rcases run_tagged_kinds uts _ p hp with h | h | h | h
    · rw [h1] at h; exact absurd h (by simp)
    · exact absurd h h2
    · exact Or.inl h
    · exact Or.inr h⟩

/-- Witness for C10: with a user record and a run-level record, the
flag-off run keeps exactly the user line, and the extra flag-on line is
tagged as a run-level record. -/
theorem C10_witness :
    (Last.run { base_last with system := false } [user_record, runlevel_record_259]).2
      = ["alice    tty1                          Jan  1 00:00 -  - still logged in"] ∧
    (runlevel_record_259.user = "runlevel" ∨ runlevel_record_259.user = "shutdown") :=
  ⟨((C10_system_flag_noninterference base_last [user_record, runlevel_record_259]).2.1).trans
      (by decide),
   (C10_system_flag_noninterference base_last [user_record, runlevel_record_259]).2.2
      (runlevel_record_259,
        "runlevel (to lvl \x03)                    Jan  1 00:00 -  - still running")
      (by decide) rfl (by decide)⟩
